import Mathlib

/-!
A shallow embedding of the GraphQL request pipeline of
`packages/apollo-server-core/src/requestPipeline.ts` (1stdibs/apollo-server).

The pipeline orchestrator `processGraphQLRequest` is translated as a pure
function from an environment (the external collaborators: the GraphQL engine,
the crypto digest, the persisted-query cache), a configuration, and a mutable
request context, to a run result consisting of

  - the outcome: a returned `GraphQLResponse`, a returned
    `DeferredGraphQLResponse`, or a thrown error (a promise rejection of the
    `async` function);
  - a trace of observable events (instrumentation callbacks, cache operations,
    engine calls), in the order the source performs them;
  - the final request context.

External packages (`graphql`, `graphql-extensions`, `apollo-server-errors`,
the persisted-query cache) are modelled at their interface boundary exactly as
the source consumes them; parts of this repository that are imported by
`requestPipeline.ts` but whose sources are not available (`./execute`,
`./utils/dispatcher`) are modelled from the specification, and are marked as
such in their doc comments.
-/

/-- Parsed documents are opaque to the pipeline: the engine produces them from
`parse` and consumes them in `validate` / `execute`. We represent them by an
abstract token. -/
abbrev Document := String

/-- An operation AST node as seen by the pipeline: only `operation.name.value`
is inspected (requestPipeline.ts lines 223-228). `name = some v` stands for a
name node whose `.value` is `v`; `none` for an anonymous operation. -/
structure Operation where
  name : Option String
  deriving DecidableEq, Repr

/-- The error kinds the pipeline itself can stamp onto a formatted error:
`fromGraphQLError` is invoked with the `SyntaxError` class (parse failures),
the `ValidationError` class (validation failures), or no class (execution
failures, which keep the engine-reported kind or default to internal).
`other` stands for an engine/app-defined error code. -/
inductive ErrKind
  | syntaxErr
  | validationErr
  | internal
  | other (code : String)
  deriving DecidableEq, Repr

/-- An engine-level `GraphQLError`: a message plus an optional error kind
already carried by the error (its `extensions.code`). -/
structure GError where
  message : String
  kind : Option ErrKind := none
  deriving DecidableEq, Repr

/-- A formatted error as produced by `fromGraphQLError` of
`apollo-server-errors` (external package, modelled at its interface): the
message is preserved, the kind comes from the requested error class when one
is supplied, otherwise from the error itself, defaulting to internal. -/
structure FormattedError where
  message : String
  kind : ErrKind
  deriving DecidableEq, Repr

/-- `fromGraphQLError(err, { errorClass })` of apollo-server-errors, as used at
requestPipeline.ts lines 418-425. -/
def fromGraphQLError (e : GError) (cls : Option ErrKind) : FormattedError :=
  { message := e.message
    kind :=
      match cls with
      | some k => k
      | none =>
        match e.kind with
        | some k => k
        | none => ErrKind.internal }

/-- A validation rule handle. The engine default rules (`specifiedRules` of
graphql-js) are abstract; `cannotDeferNonNullableFields` is the one fixed
additional rule imported from `./validationRules/CannotDeferNonNullableFields`;
custom rules come from `config.validationRules`. -/
inductive Rule
  | specified (i : Nat)
  | cannotDeferNonNullableFields
  | custom (name : String)
  deriving DecidableEq, Repr

/-- `GraphQLResponse` of the pipeline API: the three payload fields written by
the orchestrator, plus `http`, the transport metadata field that the spread at
requestPipeline.ts lines 392-397 is careful to preserve. -/
structure GraphQLResponse where
  data : Option String := none
  errors : Option (List FormattedError) := none
  extensions : Option String := none
  http : Option String := none
  deriving DecidableEq, Repr

/-- `DeferredGraphQLResponse` as returned to the caller: the envelope built at
requestPipeline.ts lines 285-290 also carries the `requestDidEnd` callback and
the extension stack, which are behaviour (traced as events) rather than data. -/
structure DeferredGraphQLResponse where
  initialResponse : GraphQLResponse
  deferredPatches : String
  deriving DecidableEq, Repr

/-- What `requestContext.response` can hold: a plain response or a deferred
envelope (line 384 stores the envelope itself into the context). -/
inductive CtxResponse
  | plain (r : GraphQLResponse)
  | deferredR (initialResponse : GraphQLResponse) (deferredPatches : String)
  deriving DecidableEq, Repr

/-- `request.extensions.persistedQuery` of the wire request. -/
structure PersistedQueryExt where
  version : Nat
  sha256Hash : String
  deriving DecidableEq, Repr

/-- The wire-level `GraphQLRequest`. `persistedQuery = some pq` stands for
`request.extensions && request.extensions.persistedQuery` being truthy. -/
structure GraphQLRequest where
  query : Option String := none
  operationName : Option String := none
  «variables» : Option String := none
  persistedQuery : Option PersistedQueryExt := none
  deriving DecidableEq, Repr

/-- The mutable `GraphQLRequestContext` threaded through the pipeline.
`contextHasDataSources` models whether the user context object already has a
`dataSources` property (line 479); `operationName = some none` models the
explicit `null` stored for anonymous operations (line 227). -/
structure RequestContext where
  request : GraphQLRequest
  response : Option CtxResponse := none
  contextHasDataSources : Bool := false
  queryHash : Option String := none
  document : Option Document := none
  operation : Option Operation := none
  operationName : Option (Option String) := none
  deriving DecidableEq, Repr

/-- The result of the engine execute call: a plain `ExecutionResult` or a
deferred `DeferredExecutionResult = { initialResult, deferredPatches }`. -/
inductive ExecutionResultV
  | complete (r : GraphQLResponse)
  | deferred (initialResult : GraphQLResponse) (deferredPatches : String)
  deriving DecidableEq, Repr

/-- Modelled from the spec: `isDeferredExecutionResult` of `./execute` (a file
of this repository not included in the sources) classifies a result as
deferred iff it carries both `initialResult` and `deferredPatches` — a
structural tag (spec section 4.5). -/
def isDeferredExecutionResultV : ExecutionResultV → Bool
  | .complete _ => false
  | .deferred _ _ => true

/-- Observable events of one pipeline run, in program order. `disp` events are
the plugin dispatcher hooks; `ext` events are the legacy extension stack
callbacks. -/
inductive Event
  | dsInit (name : String)
  | cacheGet (key : String)
  | cacheSet (key : String) (value : String)
  | cacheSetWarnLogged
  | extRequestDidStart
  | requestDidEnd
  | dispParsingDidStart
  | dispParsingDidEnd (withError : Bool)
  | extParsingDidStart
  | extParsingDidEnd
  | dispValidationDidStart
  | dispValidationDidEnd (withError : Bool)
  | extValidationDidStart
  | extValidationDidEnd
  | validateCall (rules : List Rule)
  | operationResolved
  | dispDidResolveOperation
  | dispExecutionDidStart
  | dispExecutionDidEnd (withError : Bool)
  | extExecutionDidStart
  | engineExecute
  | extExecutionDidEnd
  | extFormat
  | extWillSendResponse
  | dispWillSendResponse
  deriving DecidableEq, Repr

/-- The errors `processGraphQLRequest` can throw (reject its promise with):
the query-resolution failures of lines 128-169, the data-source configuration
error of line 480, and a rejection escaping from a plugin listener hook. -/
inductive Thrown
  | persistedQueryNotSupported
  | persistedQueryNotFound
  | invalidRequest (message : String)
  | dataSourcesConflict
  | hookRejection (message : String)
  deriving DecidableEq, Repr

/-- The outcome of a run of `processGraphQLRequest`. -/
inductive PResult
  | ok (r : GraphQLResponse)
  | okDeferred (d : DeferredGraphQLResponse)
  | thrown (e : Thrown)
  deriving DecidableEq, Repr

/-- The full observable behaviour of one run. -/
structure RunResult where
  result : PResult
  trace : List Event
  ctx : RequestContext
  deriving DecidableEq, Repr

/-- Modelled from the spec: a plugin listener as produced by
`plugin.requestDidStart` and consumed by the `Dispatcher` of
`./utils/dispatcher` (a file of this repository not included in the sources;
spec section 4.4). Only the hooks whose outcome can steer the pipeline are
modelled as data: a listener optionally implements `didResolveOperation`,
whose invocation either resolves or rejects with an error. -/
structure ListenerModel where
  didResolveOperation : Option (Except GError Unit) := none
  deriving Repr

/-- The immutable `GraphQLRequestPipelineConfig` fields the pipeline reads.
`hasPersistedQueryCache` models `config.persistedQueries &&
config.persistedQueries.cache` being truthy; `dataSources = some dss` models a
`config.dataSources` factory producing named data sources, each flagged with
whether it implements `initialize`. -/
structure Config where
  hasPersistedQueryCache : Bool := false
  validationRules : Option (List Rule) := none
  formatResponse : Option (GraphQLResponse → GraphQLResponse) := none
  dataSources : Option (List (String × Bool)) := none
  plugins : List ListenerModel := []
  enableDefer : Bool := false

/-- The external collaborators of one run, fixed before the run starts: the
crypto digest, the engine entry points, the persisted-query cache content, and
the values the extension stack contributes. Each field is consumed exactly
where the source calls the corresponding collaborator. -/
structure Env where
  sha256hex : String → String
  specifiedRules : List Rule
  pqCacheGet : String → Option String
  cacheSetFails : Bool
  parse : String → Except GError Document
  validateDoc : Document → List Rule → List GError
  getOperationAST : Document → Option String → Option Operation
  formattedExtensions : Option String
  execute : Bool → Document → Option String → Option String → Except GError ExecutionResultV

/-- `computeQueryHash` (requestPipeline.ts lines 65-69): the hex-encoded
SHA-256 digest of the query string, with the digest supplied by the external
crypto library. -/
def computeQueryHash (env : Env) (query : String) : String :=
  env.sha256hex query

/-- Modelled from the spec: `Dispatcher.invokeHookAsync` for
`didResolveOperation` (spec section 4.4): listeners implementing the hook are
awaited sequentially in registration order; a rejection from any listener
propagates immediately, skipping the remaining listeners. -/
def dispatchDidResolveOperation : List ListenerModel → Except GError Unit
  | [] => .ok ()
  | l :: ls =>
    match l.didResolveOperation with
    | none => dispatchDidResolveOperation ls
    | some (.error e) => .error e
    | some (.ok _) => dispatchDidResolveOperation ls

/-- The outcome of one pipeline step that can throw, along with the events it
emitted. -/
structure StepOut (α : Type) where
  res : Except Thrown α
  events : List Event

/-- The events emitted by `initializeDataSources` (lines 464-487): one
`initialize` call per supplied data source that implements it, in order. -/
def dsInitEvents (dss : List (String × Bool)) : List Event :=
  dss.filterMap fun ds => if ds.2 then some (Event.dsInit ds.1) else none

/-- `initializeDataSources` (requestPipeline.ts lines 464-487): when a data
source factory is configured, call `initialize` on every produced data source
that has one, then — only afterwards — throw if the user context already has a
`dataSources` property, otherwise attach the data sources to the context. -/
def initDataSources (config : Config) (ctxHasDataSources : Bool) : StepOut Bool :=
  match config.dataSources with
  | none => { res := .ok ctxHasDataSources, events := [] }
  | some dss =>
    if ctxHasDataSources then
      { res := .error .dataSourcesConflict, events := dsInitEvents dss }
    else
      { res := .ok true, events := dsInitEvents dss }

/-- The values produced by the query-resolution stage. -/
structure ResolvedQuery where
  query : String
  queryHash : String
  persistedQueryHit : Bool
  persistedQueryRegister : Bool
  deriving DecidableEq, Repr

/-- The query-resolution stage (requestPipeline.ts lines 121-169), including
the persisted-query protocol. Every failure is a plain `throw` in the source —
there is no surrounding try in `processGraphQLRequest` at this point — so
failures are `Except.error` values that the orchestrator will re-throw.
JavaScript truthiness is reproduced: a cached empty string is a cache miss
(line 143), and an empty query string with no persisted-query hint falls
through to the missing-query error (line 163). -/
def resolveQueryText (env : Env) (config : Config) (req : GraphQLRequest) :
    StepOut ResolvedQuery :=
  match req.persistedQuery with
  | some pq =>
    if !config.hasPersistedQueryCache then
      { res := .error .persistedQueryNotSupported, events := [] }
    else if pq.version ≠ 1 then
      { res := .error (.invalidRequest "Unsupported persisted query version"), events := [] }
    else
      match req.query with
      | none =>
        let key := "apq:" ++ pq.sha256Hash
        match env.pqCacheGet key with
        | some cached =>
          if cached = "" then
            { res := .error .persistedQueryNotFound, events := [.cacheGet key] }
          else
            { res := .ok { query := cached, queryHash := pq.sha256Hash,
                           persistedQueryHit := true, persistedQueryRegister := false }
              events := [.cacheGet key] }
        | none => { res := .error .persistedQueryNotFound, events := [.cacheGet key] }
      | some q =>
        let computedQueryHash := computeQueryHash env q
        if pq.sha256Hash ≠ computedQueryHash then
          { res := .error (.invalidRequest "provided sha does not match query"), events := [] }
        else
          { res := .ok { query := q, queryHash := pq.sha256Hash,
                         persistedQueryHit := false, persistedQueryRegister := true }
            events := Event.cacheSet ("apq:" ++ pq.sha256Hash) q ::
              (if env.cacheSetFails then [.cacheSetWarnLogged] else []) }
  | none =>
    match req.query with
    | some q =>
      if q = "" then
        { res := .error (.invalidRequest "Must provide query string."), events := [] }
      else
        { res := .ok { query := q, queryHash := computeQueryHash env q,
                       persistedQueryHit := false, persistedQueryRegister := false }
          events := [] }
    | none => { res := .error (.invalidRequest "Must provide query string."), events := [] }

/-- The rule list built by the nested `validate` function (lines 319-323):
the engine default rules, then the fixed `CannotDeferNonNullableFields` rule,
then the caller-supplied custom rules when configured. -/
def validationRulesUsed (env : Env) (config : Config) : List Rule :=
  let rules := env.specifiedRules ++ [Rule.cannotDeferNonNullableFields]
  match config.validationRules with
  | some custom => rules ++ custom
  | none => rules

/-- `(operation && operation.name && operation.name.value) || null`
(line 227-228): an anonymous operation, a missing name node, and an
empty-string name value all collapse to `null`. -/
def opNameValue : Option Operation → Option String
  | none => none
  | some op =>
    match op.name with
    | none => none
    | some v => if v = "" then none else some v

/-- The object spread of the finalize pass (lines 375-379 and 392-396): start
from the persisted base response and overwrite exactly `errors`, `data` and
`extensions` with the fresh values (including overwriting with `undefined`). -/
def overwriteResponseFields (base fresh : GraphQLResponse) : GraphQLResponse :=
  { base with errors := fresh.errors, data := fresh.data, extensions := fresh.extensions }

/-- The base of the spread `{...requestContext.response, ...}` on the complete
path (line 392): spreading an absent response gives an empty object, and
spreading a deferred envelope contributes none of the four response fields. -/
def ctxSpreadBase : Option CtxResponse → GraphQLResponse
  | some (.plain r) => r
  | _ => {}

/-- `requestContext.response ? (requestContext.response as
DeferredGraphQLResponse).initialResponse : undefined` (lines 370-372): the
unconditional cast reads `initialResponse` even off a plain response, where
the field is absent. -/
def ctxInitialResponse : Option CtxResponse → GraphQLResponse
  | some (.deferredR init _) => init
  | _ => {}

/-- The result of a `sendResponse` call: the value returned to the caller, the
instrumentation events, and the response stored on the request context. -/
structure SendOut where
  result : PResult
  events : List Event
  ctxResponse : CtxResponse

/-- `sendResponse` on a complete response (lines 388-404): merge the fresh
`errors`/`data`/`extensions` over the persisted context response, run the
extension-stack `willSendResponse` (an observer: graphql-extensions is
external, and the spec specifies extensions as instrumenting stage boundaries
without altering the pipeline outcome), store the merged response on the
context, then await the dispatcher `willSendResponse` hook. -/
def sendResponsePlain (ctx : RequestContext) (fresh : GraphQLResponse) : SendOut :=
  let merged := overwriteResponseFields (ctxSpreadBase ctx.response) fresh
  { result := .ok merged
    events := [.extWillSendResponse, .dispWillSendResponse]
    ctxResponse := .plain merged }

/-- `sendResponse` on a deferred response (lines 367-387): merge the fresh
initial response fields over the initial response persisted on the context,
run the extension-stack `willSendResponse` on the merged initial response, and
store the envelope with the merged initial response. The dispatcher
`willSendResponse` hook is not invoked on this path. -/
def sendResponseDeferred (ctx : RequestContext) (fresh : GraphQLResponse)
    (patches : String) : SendOut :=
  let merged := overwriteResponseFields (ctxInitialResponse ctx.response) fresh
  { result := .okDeferred { initialResponse := merged, deferredPatches := patches }
    events := [.extWillSendResponse]
    ctxResponse := .deferredR merged patches }

/-- `sendErrorResponse` (lines 408-427): wrap the error or errors in an array,
format each with `fromGraphQLError` under the optional error class, and send a
response carrying only the `errors` field. -/
def sendErrorResponse (ctx : RequestContext) (errs : List GError)
    (cls : Option ErrKind) : SendOut :=
  sendResponsePlain ctx { errors := some (errs.map (fromGraphQLError · cls)) }

/-- Lines 268-279: merge the extension-stack `format()` output into the
response when it is non-empty, then apply the caller-supplied
`formatResponse` transform, defaulting to the identity. -/
def formatStage (env : Env) (config : Config) (r : GraphQLResponse) : GraphQLResponse :=
  let r1 :=
    match env.formattedExtensions with
    | some fx => { r with extensions := some fx }
    | none => r
  match config.formatResponse with
  | some f => f r1
  | none => r1

/-- The body of `processGraphQLRequest` from `extensionStack.requestDidStart`
(line 173) to the end of the try/finally (line 305), given the resolved query
text. The outer `let isDeferred = false` of line 190 is modelled by
`outerIsDeferred`: the `finally` block of lines 301-305 reads this variable,
but the assignment at line 258 targets the distinct inner
`let isDeferred` declared at line 249, which shadows it — so the cleanup
events are fixed before any branching on the execution result. -/
def runPipelineBody (env : Env) (config : Config) (ctx : RequestContext)
    (query : String) : RunResult :=
  let pre : List Event := [.extRequestDidStart, .dispParsingDidStart]
  let outerIsDeferred : Bool := false
  let fin : List Event := if outerIsDeferred then [] else [.requestDidEnd]
  match env.parse query with
  | .error synErr =>
    let s := sendErrorResponse ctx [synErr] (some .syntaxErr)
    { result := s.result
      trace := pre ++ [.extParsingDidStart, .extParsingDidEnd, .dispParsingDidEnd true]
        ++ s.events ++ fin
      ctx := { ctx with response := some s.ctxResponse } }
  | .ok document =>
    let ctx1 := { ctx with document := some document }
    let rules := validationRulesUsed env config
    let validationErrors := env.validateDoc document rules
    let parsedEv := pre ++
      [.extParsingDidStart, .extParsingDidEnd, .dispParsingDidEnd false,
       .dispValidationDidStart, .extValidationDidStart, .validateCall rules,
       .extValidationDidEnd]
    if validationErrors.isEmpty then
      let operation := env.getOperationAST document ctx.request.operationName
      let ctx2 := { ctx1 with
                    operation := operation
                    operationName := some (opNameValue operation) }
      let opEv := parsedEv ++
        [.dispValidationDidEnd false, .operationResolved, .dispDidResolveOperation]
      match dispatchDidResolveOperation config.plugins with
      | .error hookErr =>
        { result := .thrown (.hookRejection hookErr.message)
          trace := opEv ++ fin
          ctx := ctx2 }
      | .ok _ =>
        let execEv := opEv ++
          [.dispExecutionDidStart, .extExecutionDidStart, .engineExecute,
           .extExecutionDidEnd]
        match env.execute config.enableDefer document ctx.request.operationName
            ctx.request.variables with
        | .error execErr =>
          let s := sendErrorResponse ctx2 [execErr] none
          { result := s.result
            trace := execEv ++ [.dispExecutionDidEnd true] ++ s.events ++ fin
            ctx := { ctx2 with response := some s.ctxResponse } }
        | .ok (.complete r) =>
          let s := sendResponsePlain ctx2 (formatStage env config r)
          { result := s.result
            trace := execEv ++ [.extFormat, .dispExecutionDidEnd false] ++ s.events ++ fin
            ctx := { ctx2 with response := some s.ctxResponse } }
        | .ok (.deferred initialResult patches) =>
          let s := sendResponseDeferred ctx2 (formatStage env config initialResult) patches
          { result := s.result
            trace := execEv ++ [.extFormat, .dispExecutionDidEnd false] ++ s.events ++ fin
            ctx := { ctx2 with response := some s.ctxResponse } }
    else
      let s := sendErrorResponse ctx1 validationErrors (some .validationErr)
      { result := s.result
        trace := parsedEv ++ [.dispValidationDidEnd true] ++ s.events ++ fin
        ctx := { ctx1 with response := some s.ctxResponse } }

/-- `processGraphQLRequest` (requestPipeline.ts lines 107-305): initialize the
extension stack and dispatcher, initialize data sources (which may throw the
configuration error), resolve the query text (whose failures are thrown,
uncaught, to the caller), record the query hash on the context, and run the
instrumented stage pipeline. -/
def processGraphQLRequest (env : Env) (config : Config) (ctx : RequestContext) :
    RunResult :=
  let ds := initDataSources config ctx.contextHasDataSources
  match ds.res with
  | .error e => { result := .thrown e, trace := ds.events, ctx := ctx }
  | .ok hasDS =>
    let ctx1 := { ctx with contextHasDataSources := hasDS }
    let rq := resolveQueryText env config ctx1.request
    match rq.res with
    | .error e => { result := .thrown e, trace := ds.events ++ rq.events, ctx := ctx1 }
    | .ok rqv =>
      let ctx2 := { ctx1 with queryHash := some rqv.queryHash }
      let body := runPipelineBody env config ctx2 rqv.query
      { result := body.result, trace := ds.events ++ rq.events ++ body.trace
        ctx := body.ctx }

/-! Concrete fixtures used to evaluate the model on specific inputs. -/

/-- A concrete environment: the engine parses and validates everything, the
operation echoes the requested name, execution yields a complete result, the
persisted-query cache is empty, and the digest is an opaque injective stand-in
for the external SHA-256 implementation. -/
def baseEnv : Env :=
  { sha256hex := fun q => String.append "sha-" q
    specifiedRules := [.specified 0, .specified 1]
    pqCacheGet := fun _ => none
    cacheSetFails := false
    parse := fun q => .ok (String.append "doc-" q)
    validateDoc := fun _ _ => []
    getOperationAST := fun _ opName => some { name := opName }
    formattedExtensions := none
    execute := fun _ _ _ _ => .ok (.complete { data := some "payload" }) }

/-- A request carrying plain query text and no persisted-query hint. -/
def reqPlain : GraphQLRequest := { query := some "q1" }

/-- A fresh request context around `reqPlain`. -/
def ctxPlain : RequestContext := { request := reqPlain }

/-- An empty request: no query text, no persisted-query hint. -/
def reqEmpty : GraphQLRequest := {}

/-- A fresh request context around `reqEmpty`. -/
def ctxEmpty : RequestContext := { request := reqEmpty }

/-- An environment whose engine rejects every query with a syntax error. -/
def envParseFail : Env :=
  { baseEnv with parse := fun _ => .error { message := "bad syntax" } }

/-- An environment whose engine execute call returns a deferred result. -/
def envDefer : Env :=
  { baseEnv with
    execute := fun _ _ _ _ => .ok (.deferred { data := some "init" } "patches") }

/-! Helper lemmas about traces. -/

/-- Occurrence count of an event in a trace. -/
def countE (e : Event) : List Event → Nat
  | [] => 0
  | x :: xs => (if x = e then 1 else 0) + countE e xs

lemma countE_append (e : Event) (l₁ l₂ : List Event) :
    countE e (l₁ ++ l₂) = countE e l₁ + countE e l₂ := by
  induction l₁ with
  | nil => simp [countE]
  | cons x xs ih => simp [countE, ih, Nat.add_assoc]

lemma countE_eq_zero {e : Event} {l : List Event} (h : e ∉ l) : countE e l = 0 := by
  induction l with
  | nil => rfl
  | cons x xs ih =>
    simp only [List.mem_cons, not_or] at h
    have hne : ¬ x = e := fun hx => h.1 hx.symm
    simp [countE, ih h.2, hne]

lemma mem_dsInitEvents {e : Event} {dss : List (String × Bool)}
    (h : e ∈ dsInitEvents dss) : ∃ n, e = .dsInit n := by
  rcases List.mem_filterMap.mp h with ⟨a, -, ha⟩
  by_cases h2 : a.2
  · simp only [h2, if_true, Option.some.injEq] at ha
    exact ⟨a.1, ha.symm⟩
  · simp [h2] at ha

lemma dsInit_mem_dsInitEvents {n : String} {dss : List (String × Bool)}
    (h : (n, true) ∈ dss) : Event.dsInit n ∈ dsInitEvents dss :=
  List.mem_filterMap.mpr ⟨(n, true), h, by simp⟩

lemma mem_initDataSources_events {e : Event} {config : Config} {b : Bool}
    (h : e ∈ (initDataSources config b).events) : ∃ n, e = .dsInit n := by
  unfold initDataSources at h
  rcases hd : config.dataSources with - | dss <;> rw [hd] at h
  · simp at h
  · by_cases hb : b <;> simp only [hb, if_true, if_false] at h <;>
      exact mem_dsInitEvents h

lemma mem_resolveQueryText_events {e : Event} {env : Env} {config : Config}
    {req : GraphQLRequest} (h : e ∈ (resolveQueryText env config req).events) :
    (∃ k, e = .cacheGet k) ∨ (∃ k v, e = .cacheSet k v) ∨ e = .cacheSetWarnLogged := by
  unfold resolveQueryText at h
  rcases hpq : req.persistedQuery with - | pq <;> rw [hpq] at h
  · rcases hq : req.query with - | q <;> rw [hq] at h
    · simp at h
    · by_cases he : q = "" <;> simp [he] at h
  · by_cases hc : config.hasPersistedQueryCache
    · simp only [hc, Bool.not_true, Bool.false_eq_true, if_false] at h
      by_cases hv : pq.version ≠ 1
      · simp [hv] at h
      · simp only [hv, if_false] at h
        rcases hq : req.query with - | q <;> rw [hq] at h
        · rcases hg : env.pqCacheGet ("apq:" ++ pq.sha256Hash) with - | cached <;>
            rw [hg] at h
          · simp only [List.mem_singleton] at h
            exact Or.inl ⟨_, h⟩
          · by_cases he : cached = "" <;> simp only [he, if_true, if_false] at h <;>
              simp only [List.mem_singleton] at h <;> exact Or.inl ⟨_, h⟩
        · by_cases hm : pq.sha256Hash ≠ computeQueryHash env q
          · simp [hm] at h
          · simp only [hm, if_false, List.mem_cons] at h
            rcases h with h | h
            · exact Or.inr (Or.inl ⟨_, _, h⟩)
            · by_cases hf : env.cacheSetFails <;> simp [hf] at h
              exact Or.inr (Or.inr h)
    · simp [hc] at h

/-! Claim C1. -/

/-- C1 counterexample: a request with no query text and no persisted-query
hint makes `processGraphQLRequest` throw the InvalidRequest failure to its
caller; no `Response` is returned, refuting the claim that query-resolution
failures are caught and converted into a returned response. -/
theorem c1_counterexample :
    (processGraphQLRequest baseEnv {} ctxEmpty).result =
      .thrown (.invalidRequest "Must provide query string.") ∧
    ∀ r, (processGraphQLRequest baseEnv {} ctxEmpty).result ≠ .ok r := by
  refine ⟨rfl, fun r h => ?_⟩
  exact PResult.noConfusion
    (show PResult.thrown (.invalidRequest "Must provide query string.") = .ok r from h)

/-- C1 amended: failures raised during the query-resolution stage (missing
query string, persisted-query hint without a configured cache, unsupported
persisted-query version, cache miss, hash mismatch) are NOT caught by the
orchestrator: `processGraphQLRequest` propagates them to its caller as thrown
errors, without building a `Response`. Failures of the later parse and execute
stages are the ones caught and converted into a returned `Response` carrying a
single `FormattedError` of the appropriate kind. -/
theorem c1_amended (env : Env) (config : Config) (ctx : RequestContext) (b : Bool)
    (hds : (initDataSources config ctx.contextHasDataSources).res = .ok b) :
    (∀ e, (resolveQueryText env config ctx.request).res = .error e →
      (processGraphQLRequest env config ctx).result = .thrown e) ∧
    (∀ rq synErr, (resolveQueryText env config ctx.request).res = .ok rq →
      env.parse rq.query = .error synErr →
      ∃ r, (processGraphQLRequest env config ctx).result = .ok r ∧
        r.errors = some [fromGraphQLError synErr (some .syntaxErr)]) ∧
    (∀ rq doc execErr, (resolveQueryText env config ctx.request).res = .ok rq →
      env.parse rq.query = .ok doc →
      env.validateDoc doc (validationRulesUsed env config) = [] →
      dispatchDidResolveOperation config.plugins = .ok () →
      env.execute config.enableDefer doc ctx.request.operationName
        ctx.request.variables = .error execErr →
      ∃ r, (processGraphQLRequest env config ctx).result = .ok r ∧
        r.errors = some [fromGraphQLError execErr none]) := by
  refine ⟨fun e hrq => ?_, fun rq synErr hrq hparse => ?_, ?_⟩
  · simp [processGraphQLRequest, hds, hrq]
  · refine ⟨overwriteResponseFields (ctxSpreadBase ctx.response)
      { errors := some [fromGraphQLError synErr (some .syntaxErr)] }, ?_, rfl⟩
    simp [processGraphQLRequest, hds, hrq, runPipelineBody, hparse,
      sendErrorResponse, sendResponsePlain]
  · intro rq doc execErr hrq hparse hval hdisp hexec
    refine ⟨overwriteResponseFields (ctxSpreadBase ctx.response)
      { errors := some [fromGraphQLError execErr none] }, ?_, rfl⟩
    simp [processGraphQLRequest, hds, hrq, runPipelineBody, hparse, hval, hdisp,
      hexec, sendErrorResponse, sendResponsePlain]

/-- C1 witness: the amended theorem applied at concrete inputs — a
resolution-stage failure is thrown, and a parse failure is returned as a
response with a single formatted syntax error. -/
theorem c1_witness :
    (processGraphQLRequest baseEnv {} ctxEmpty).result =
      .thrown (.invalidRequest "Must provide query string.") ∧
    ∃ r, (processGraphQLRequest envParseFail {} ctxPlain).result = .ok r ∧
      r.errors = some [fromGraphQLError { message := "bad syntax" } (some .syntaxErr)] := by
  constructor
  · exact (c1_amended baseEnv {} ctxEmpty false rfl).1 _ rfl
  · exact (c1_amended envParseFail {} ctxPlain false rfl).2.1
      { query := "q1", queryHash := "sha-q1",
        persistedQueryHit := false, persistedQueryRegister := false }
      { message := "bad syntax" } rfl rfl

/-! Claim C10. -/

/-- C10: when a data-source factory is configured and the user context already
has a `dataSources` property, `processGraphQLRequest` throws the configuration
error, but only after `initialize` has been invoked on every supplied data
source that implements it: the whole trace of the failed run is exactly the
data-source `initialize` calls, so their side effects have occurred when the
error is raised. -/
theorem c10_conflict_after_ds_init (env : Env) (config : Config)
    (ctx : RequestContext) (dss : List (String × Bool))
    (hcfg : config.dataSources = some dss)
    (hctx : ctx.contextHasDataSources = true) :
    (processGraphQLRequest env config ctx).result = .thrown .dataSourcesConflict ∧
    (processGraphQLRequest env config ctx).trace = dsInitEvents dss ∧
    ∀ n, (n, true) ∈ dss →
      Event.dsInit n ∈ (processGraphQLRequest env config ctx).trace := by
  refine ⟨?_, ?_, fun n hn => ?_⟩ <;>
    simp [processGraphQLRequest, initDataSources, hcfg, hctx]
  exact dsInit_mem_dsInitEvents hn

/-- C10 witness: the theorem applied to a context that already has
`dataSources` and a config with two initializable data sources and one
without. -/
theorem c10_witness :
    (processGraphQLRequest baseEnv
      { dataSources := some [("a", true), ("b", false), ("c", true)] }
      { ctxPlain with contextHasDataSources := true }).result =
        .thrown .dataSourcesConflict ∧
    (processGraphQLRequest baseEnv
      { dataSources := some [("a", true), ("b", false), ("c", true)] }
      { ctxPlain with contextHasDataSources := true }).trace =
        dsInitEvents [("a", true), ("b", false), ("c", true)] ∧
    ∀ n, (n, true) ∈ [("a", true), ("b", false), ("c", true)] →
      Event.dsInit n ∈ (processGraphQLRequest baseEnv
        { dataSources := some [("a", true), ("b", false), ("c", true)] }
        { ctxPlain with contextHasDataSources := true }).trace :=
  c10_conflict_after_ds_init baseEnv
    { dataSources := some [("a", true), ("b", false), ("c", true)] }
    { ctxPlain with contextHasDataSources := true }
    [("a", true), ("b", false), ("c", true)] rfl rfl

/-! Claim C8. -/

lemma runPipelineBody_ctx_queryHash (env : Env) (config : Config)
    (c : RequestContext) (q : String) :
    (runPipelineBody env config c q).ctx.queryHash = c.queryHash := by
  unfold runPipelineBody
  rcases hp : env.parse q with e | doc
  · simp [hp]
  · simp only [hp]
    cases hv : (env.validateDoc doc (validationRulesUsed env config)).isEmpty
    · simp [hv]
    · simp only [hv, if_true]
      rcases hd : dispatchDidResolveOperation config.plugins with e | u
      · simp [hd]
      · simp only [hd]
        rcases hx : env.execute config.enableDefer doc c.request.operationName
            c.request.variables with e | r
        · simp [hx]
        · cases r <;> simp [hx]

/-- C8: for every request carrying query text (non-empty, per JavaScript
truthiness) and no persistedQuery extension, once data-source initialization
succeeds, the `queryHash` recorded on the request context is the SHA-256 hex
digest of the exact query string. -/
theorem c8_queryHash_is_sha256 (env : Env) (config : Config)
    (ctx : RequestContext) (q : String) (b : Bool)
    (hds : (initDataSources config ctx.contextHasDataSources).res = .ok b)
    (hpq : ctx.request.persistedQuery = none)
    (hq : ctx.request.query = some q) (hne : q ≠ "") :
    (processGraphQLRequest env config ctx).ctx.queryHash =
      some (env.sha256hex q) := by
  simp [processGraphQLRequest, hds, resolveQueryText, hpq, hq, hne,
    computeQueryHash, runPipelineBody_ctx_queryHash]

/-- C8 witness: the theorem applied to a plain request with query text. -/
theorem c8_witness :
    (processGraphQLRequest baseEnv {} ctxPlain).ctx.queryHash =
      some (baseEnv.sha256hex "q1") :=
  c8_queryHash_is_sha256 baseEnv {} ctxPlain "q1" false rfl rfl rfl (by decide)

lemma countE_prefix_zero (e : Event) (h1 : ∀ n, e ≠ .dsInit n)
    (h2 : ∀ k, e ≠ .cacheGet k) (h3 : ∀ k v, e ≠ .cacheSet k v)
    (h4 : e ≠ .cacheSetWarnLogged) (config : Config) (b : Bool) (env : Env)
    (req : GraphQLRequest) :
    countE e (initDataSources config b).events = 0 ∧
    countE e (resolveQueryText env config req).events = 0 := by
  constructor <;> apply countE_eq_zero <;> intro hm
  · obtain ⟨n, he⟩ := mem_initDataSources_events hm
    exact h1 n he
  · rcases mem_resolveQueryText_events hm with ⟨k, he⟩ | ⟨k, v, he⟩ | he
    · exact h2 k he
    · exact h3 k v he
    · exact h4 he

/-! Claim C4. -/

lemma resolveQueryText_res_cacheSetFails (env : Env) (b : Bool) (config : Config)
    (req : GraphQLRequest) :
    (resolveQueryText { env with cacheSetFails := b } config req).res =
      (resolveQueryText env config req).res := by
  rcases env with ⟨sha, srules, cget, cfails, pparse, pval, pgoa, pfx, pex⟩
  unfold resolveQueryText computeQueryHash
  rcases hpq : req.persistedQuery with - | pq <;>
    rcases hq : req.query with - | q <;> simp only [hpq, hq]
  all_goals split_ifs <;> rfl

lemma runPipelineBody_cacheSetFails (env : Env) (b : Bool) (config : Config)
    (c : RequestContext) (q : String) :
    runPipelineBody { env with cacheSetFails := b } config c q =
      runPipelineBody env config c q := by
  cases env
  rfl

/-- C4: under a version-1 persisted-query hint carried together with query
text (and a configured persisted-query cache), a declared hash differing from
the computed SHA-256 hex digest fails the pipeline with the InvalidRequest
error and the cache set operation never appears in the trace; the cache write
of key "apq:" + sha256Hash and value the query text happens exactly when the
hashes agree; and a failure of that fire-and-forget write never changes the
outcome delivered to the client. -/
theorem c4_apq_register (env : Env) (config : Config) (ctx : RequestContext)
    (pq : PersistedQueryExt) (q : String) (b : Bool)
    (hpq : ctx.request.persistedQuery = some pq)
    (hv : pq.version = 1)
    (hc : config.hasPersistedQueryCache = true)
    (hq : ctx.request.query = some q)
    (hds : (initDataSources config ctx.contextHasDataSources).res = .ok b) :
    (pq.sha256Hash ≠ env.sha256hex q →
      (processGraphQLRequest env config ctx).result =
        .thrown (.invalidRequest "provided sha does not match query") ∧
      ∀ k v, Event.cacheSet k v ∉ (processGraphQLRequest env config ctx).trace) ∧
    (pq.sha256Hash = env.sha256hex q →
      Event.cacheSet ("apq:" ++ pq.sha256Hash) q ∈
        (processGraphQLRequest env config ctx).trace) ∧
    (∀ b₁ b₂, (processGraphQLRequest { env with cacheSetFails := b₁ } config ctx).result =
      (processGraphQLRequest { env with cacheSetFails := b₂ } config ctx).result) := by
  refine ⟨fun hm => ⟨?_, ?_⟩, fun hm => ?_, fun b₁ b₂ => ?_⟩
  · simp [processGraphQLRequest, hds, resolveQueryText, hpq, hv, hc, hq,
      computeQueryHash, hm]
  · intro k v hmem
    simp [processGraphQLRequest, hds, resolveQueryText, hpq, hv, hc, hq,
      computeQueryHash, hm] at hmem
    rcases mem_initDataSources_events hmem with ⟨n, hn⟩
    exact Event.noConfusion hn
  · simp [processGraphQLRequest, hds, resolveQueryText, hpq, hv, hc, hq,
      computeQueryHash, hm, List.mem_append]
  · simp only [processGraphQLRequest]
    rcases hdsr : (initDataSources config ctx.contextHasDataSources).res with e | hb <;>
      simp only [hdsr]
    have hr₁ := resolveQueryText_res_cacheSetFails env b₁ config ctx.request
    have hr₂ := resolveQueryText_res_cacheSetFails env b₂ config ctx.request
    rcases hrq2 : (resolveQueryText env config ctx.request).res with e | rqv <;>
      rw [hrq2] at hr₁ hr₂ <;>
      simp [hr₁, hr₂, runPipelineBody_cacheSetFails]

/-- C4 witness: the theorem applied at a matching-hash registration and at a
mismatching declared hash. -/
theorem c4_witness :
    (Event.cacheSet ("apq:" ++ "sha-q1") "q1" ∈
      (processGraphQLRequest baseEnv { hasPersistedQueryCache := true }
        { request := { query := some "q1",
                       persistedQuery := some { version := 1, sha256Hash := "sha-q1" } } }).trace) ∧
    (processGraphQLRequest baseEnv { hasPersistedQueryCache := true }
      { request := { query := some "q1",
                     persistedQuery := some { version := 1, sha256Hash := "WRONG" } } }).result =
      .thrown (.invalidRequest "provided sha does not match query") := by
  constructor
  · exact (c4_apq_register baseEnv { hasPersistedQueryCache := true }
      { request := { query := some "q1",
                     persistedQuery := some { version := 1, sha256Hash := "sha-q1" } } }
      { version := 1, sha256Hash := "sha-q1" } "q1" false
      rfl rfl rfl rfl rfl).2.1 (by decide)
  · exact ((c4_apq_register baseEnv { hasPersistedQueryCache := true }
      { request := { query := some "q1",
                     persistedQuery := some { version := 1, sha256Hash := "WRONG" } } }
      { version := 1, sha256Hash := "WRONG" } "q1" false
      rfl rfl rfl rfl rfl).1 (by decide)).1

/-! Claim C5. -/

lemma runPipelineBody_complete_frame (env : Env) (config : Config)
    (c : RequestContext) (q : String) (r : GraphQLResponse)
    (hr : c.response = some (.plain r)) :
    ∀ out, (runPipelineBody env config c q).result = .ok out →
      (∃ fresh, out = overwriteResponseFields r fresh) ∧
      out.http = r.http ∧
      (runPipelineBody env config c q).ctx.response = some (.plain out) := by
  intro out h
  unfold runPipelineBody at h ⊢
  rcases hp : env.parse q with e | doc <;> simp only [hp] at h ⊢
  · simp only [sendErrorResponse, sendResponsePlain, hr, ctxSpreadBase,
      PResult.ok.injEq] at h ⊢
    subst h
    exact ⟨⟨_, rfl⟩, rfl, rfl⟩
  · cases hv : (env.validateDoc doc (validationRulesUsed env config)).isEmpty <;>
      simp only [hv, Bool.false_eq_true, if_true, if_false] at h ⊢
    · simp only [sendErrorResponse, sendResponsePlain, hr, ctxSpreadBase,
        PResult.ok.injEq] at h ⊢
      subst h
      exact ⟨⟨_, rfl⟩, rfl, rfl⟩
    · rcases hd : dispatchDidResolveOperation config.plugins with e | u <;>
        simp only [hd] at h ⊢
      · exact PResult.noConfusion h
      · rcases hx : env.execute config.enableDefer doc c.request.operationName
            c.request.variables with e | er <;> simp only [hx] at h ⊢
        · simp only [sendErrorResponse, sendResponsePlain, hr, ctxSpreadBase,
            PResult.ok.injEq] at h ⊢
          subst h
          exact ⟨⟨_, rfl⟩, rfl, rfl⟩
        · rcases er with rr | ⟨ir, pp⟩ <;>
            simp only [sendResponsePlain, sendResponseDeferred, hr, ctxSpreadBase,
              PResult.ok.injEq] at h ⊢
          · subst h
            exact ⟨⟨_, rfl⟩, rfl, rfl⟩
          · exact PResult.noConfusion h

/-- C5: on the finalize pass for a complete (non-deferred) outcome, the
orchestrator overwrites only the errors, data and extensions fields of the
persisted context response: the response returned to the caller is exactly the
persisted response with those three fields replaced, every other field — in
particular the transport metadata `http` — is preserved unchanged, and the
merged response is what is stored back on the context. -/
theorem c5_finalize_frame (env : Env) (config : Config) (ctx : RequestContext)
    (r : GraphQLResponse) (hr : ctx.response = some (.plain r)) :
    ∀ out, (processGraphQLRequest env config ctx).result = .ok out →
      (∃ fresh, out = overwriteResponseFields r fresh) ∧
      out.http = r.http ∧
      (processGraphQLRequest env config ctx).ctx.response = some (.plain out) := by
  intro out h
  simp only [processGraphQLRequest] at h ⊢
  rcases hdsr : (initDataSources config ctx.contextHasDataSources).res with e | hb <;>
    simp only [hdsr] at h ⊢
  · exact PResult.noConfusion h
  · rcases hrq : (resolveQueryText env config ctx.request).res with e | rqv <;>
      simp only [hrq] at h ⊢
    · exact PResult.noConfusion h
    · exact runPipelineBody_complete_frame env config _ rqv.query r (by simp [hr]) out h

/-- C5 witness: a run started from a context whose persisted response carries
http metadata returns the merged response with that metadata preserved. -/
theorem c5_witness :
    ∃ out, (processGraphQLRequest baseEnv {}
      { request := reqPlain,
        response := some (.plain { http := some "metadata" }) }).result = .ok out ∧
      (∃ fresh, out = overwriteResponseFields { http := some "metadata" } fresh) ∧
      out.http = some "metadata" := by
  have h := c5_finalize_frame baseEnv {}
    { request := reqPlain, response := some (.plain { http := some "metadata" }) }
    { http := some "metadata" } rfl { data := some "payload", http := some "metadata" } rfl
  exact ⟨_, rfl, h.1, h.2.1⟩

/-! Claim C6. -/

lemma runPipelineBody_willSend (env : Env) (config : Config)
    (c : RequestContext) (q : String) :
    (∀ r, (runPipelineBody env config c q).result = .ok r →
      countE .dispWillSendResponse (runPipelineBody env config c q).trace = 1) ∧
    (∀ d, (runPipelineBody env config c q).result = .okDeferred d →
      countE .dispWillSendResponse (runPipelineBody env config c q).trace = 0 ∧
      ∃ fresh, d.initialResponse =
        overwriteResponseFields (ctxInitialResponse c.response) fresh) := by
  constructor
  · intro r h
    unfold runPipelineBody at h ⊢
    rcases hp : env.parse q with e | doc <;> simp only [hp] at h ⊢
    · simp [sendErrorResponse, sendResponsePlain, countE]
    · cases hv : (env.validateDoc doc (validationRulesUsed env config)).isEmpty <;>
        simp only [hv, Bool.false_eq_true, if_true, if_false] at h ⊢
      · simp [sendErrorResponse, sendResponsePlain, countE]
      · rcases hd : dispatchDidResolveOperation config.plugins with e | u <;>
          simp only [hd] at h ⊢
        · exact PResult.noConfusion h
        · rcases hx : env.execute config.enableDefer doc c.request.operationName
              c.request.variables with e | er <;> simp only [hx] at h ⊢
          · simp [sendErrorResponse, sendResponsePlain, countE]
          · rcases er with rr | ⟨ir, pp⟩ <;>
              simp only [sendResponsePlain, sendResponseDeferred] at h ⊢
            · simp [countE]
            · exact PResult.noConfusion h
  · intro d h
    unfold runPipelineBody at h ⊢
    rcases hp : env.parse q with e | doc <;> simp only [hp] at h ⊢
    · exact PResult.noConfusion (show PResult.ok _ = _ from h)
    · cases hv : (env.validateDoc doc (validationRulesUsed env config)).isEmpty <;>
        simp only [hv, Bool.false_eq_true, if_true, if_false] at h ⊢
      · exact PResult.noConfusion (show PResult.ok _ = _ from h)
      · rcases hd : dispatchDidResolveOperation config.plugins with e | u <;>
          simp only [hd] at h ⊢
        · exact PResult.noConfusion h
        · rcases hx : env.execute config.enableDefer doc c.request.operationName
              c.request.variables with e | er <;> simp only [hx] at h ⊢
          · exact PResult.noConfusion (show PResult.ok _ = _ from h)
          · rcases er with rr | ⟨ir, pp⟩ <;>
              simp only [sendResponsePlain, sendResponseDeferred,
                PResult.okDeferred.injEq] at h ⊢
            · exact PResult.noConfusion h
            · constructor
              · simp [countE]
              · exact ⟨_, by rw [h.symm]⟩

/-- C6: the plugin dispatcher `willSendResponse` hook runs exactly once per
request whose outcome is a complete (non-deferred) response, and never runs
when the outcome is deferred; on the deferred path the orchestrator still
applies the same errors/data/extensions merge (through the extension stack) to
the initial response persisted on the context. -/
theorem c6_willSendResponse_dispatch (env : Env) (config : Config)
    (ctx : RequestContext) :
    (∀ r, (processGraphQLRequest env config ctx).result = .ok r →
      countE .dispWillSendResponse (processGraphQLRequest env config ctx).trace = 1) ∧
    (∀ d, (processGraphQLRequest env config ctx).result = .okDeferred d →
      countE .dispWillSendResponse (processGraphQLRequest env config ctx).trace = 0 ∧
      ∃ fresh, d.initialResponse =
        overwriteResponseFields (ctxInitialResponse ctx.response) fresh) := by
  have hpfx := countE_prefix_zero .dispWillSendResponse
    (fun n h => Event.noConfusion h) (fun k h => Event.noConfusion h)
    (fun k v h => Event.noConfusion h) (fun h => Event.noConfusion h)
  constructor
  · intro r h
    simp only [processGraphQLRequest] at h ⊢
    rcases hdsr : (initDataSources config ctx.contextHasDataSources).res with e | hb <;>
      simp only [hdsr] at h ⊢
    · exact PResult.noConfusion h
    · rcases hrq : (resolveQueryText env config ctx.request).res with e | rqv <;>
        simp only [hrq] at h ⊢
      · exact PResult.noConfusion h
      · rw [countE_append, countE_append,
          (hpfx config ctx.contextHasDataSources env ctx.request).1,
          (hpfx config ctx.contextHasDataSources env ctx.request).2]
        simpa using (runPipelineBody_willSend env config _ rqv.query).1 r h
  · intro d h
    simp only [processGraphQLRequest] at h ⊢
    rcases hdsr : (initDataSources config ctx.contextHasDataSources).res with e | hb <;>
      simp only [hdsr] at h ⊢
    · exact PResult.noConfusion h
    · rcases hrq : (resolveQueryText env config ctx.request).res with e | rqv <;>
        simp only [hrq] at h ⊢
      · exact PResult.noConfusion h
      · have hb2 := (runPipelineBody_willSend env config
          { { ctx with contextHasDataSources := hb } with
            queryHash := some rqv.queryHash } rqv.query).2 d h
        refine ⟨?_, hb2.2⟩
        rw [countE_append, countE_append,
          (hpfx config ctx.contextHasDataSources env ctx.request).1,
          (hpfx config ctx.contextHasDataSources env ctx.request).2]
        simpa using hb2.1

/-- C6 witness: exactly one dispatcher `willSendResponse` on a complete run;
none on a deferred run, whose initial response is still the merged one. -/
theorem c6_witness :
    countE .dispWillSendResponse (processGraphQLRequest baseEnv {} ctxPlain).trace = 1 ∧
    countE .dispWillSendResponse (processGraphQLRequest envDefer {} ctxPlain).trace = 0 ∧
    ∃ fresh, ({ initialResponse := { data := some "init" },
                deferredPatches := "patches" } : DeferredGraphQLResponse).initialResponse =
      overwriteResponseFields (ctxInitialResponse ctxPlain.response) fresh := by
  refine ⟨?_, ?_⟩
  · exact (c6_willSendResponse_dispatch baseEnv {} ctxPlain).1
      { data := some "payload" } rfl
  · exact (c6_willSendResponse_dispatch envDefer {} ctxPlain).2
      { initialResponse := { data := some "init" }, deferredPatches := "patches" } rfl

/-! Claim C7. -/

lemma runPipelineBody_validateCall (env : Env) (config : Config)
    (c : RequestContext) (q : String) (doc : Document)
    (hparse : env.parse q = .ok doc) (rs : List Rule) :
    Event.validateCall rs ∈ (runPipelineBody env config c q).trace ↔
      rs = validationRulesUsed env config := by
  unfold runPipelineBody
  simp only [hparse]
  cases hv : (env.validateDoc doc (validationRulesUsed env config)).isEmpty <;>
    simp only [hv, Bool.false_eq_true, if_true, if_false]
  · simp [sendErrorResponse, sendResponsePlain, List.mem_append, eq_comm]
  · rcases hd : dispatchDidResolveOperation config.plugins with e | u <;>
      simp only [hd]
    · simp [List.mem_append, eq_comm]
    · rcases hx : env.execute config.enableDefer doc c.request.operationName
          c.request.variables with e | er
      · simp [hx, sendErrorResponse, sendResponsePlain, List.mem_append, eq_comm]
      · rcases er with rr | ⟨ir, pp⟩ <;>
          simp [hx, sendResponsePlain, sendResponseDeferred, List.mem_append, eq_comm]

lemma runPipelineBody_validation_error (env : Env) (config : Config)
    (c : RequestContext) (q : String) (doc : Document)
    (hparse : env.parse q = .ok doc)
    (hval : env.validateDoc doc (validationRulesUsed env config) ≠ []) :
    (runPipelineBody env config c q).result = .ok (overwriteResponseFields
      (ctxSpreadBase c.response)
      { errors := some ((env.validateDoc doc (validationRulesUsed env config)).map
          (fromGraphQLError · (some .validationErr))) }) ∧
    Event.engineExecute ∉ (runPipelineBody env config c q).trace ∧
    Event.dispExecutionDidStart ∉ (runPipelineBody env config c q).trace := by
  rcases hl : env.validateDoc doc (validationRulesUsed env config) with - | ⟨x, xs⟩
  · exact absurd hl hval
  · unfold runPipelineBody
    simp only [hparse, hl, List.isEmpty_cons, Bool.false_eq_true, if_false]
    refine ⟨rfl, ?_, ?_⟩ <;>
      simp [sendErrorResponse, sendResponsePlain, List.mem_append]

/-- C7: validation runs exactly the rule set made of the engine default rules,
the fixed CannotDeferNonNullableFields rule, and any caller-supplied custom
rules — the rule list handed to the engine validate call is that list and no
other; and whenever this validation returns one or more errors, the request
ends in a response whose errors are the validation errors formatted with the
Validation kind, and the execute stage is never reached. -/
theorem c7_validation_rules (env : Env) (config : Config) (ctx : RequestContext)
    (doc : Document) (b : Bool) (rqv : ResolvedQuery)
    (hds : (initDataSources config ctx.contextHasDataSources).res = .ok b)
    (hrq : (resolveQueryText env config ctx.request).res = .ok rqv)
    (hparse : env.parse rqv.query = .ok doc) :
    (∀ rs, Event.validateCall rs ∈ (processGraphQLRequest env config ctx).trace ↔
      rs = validationRulesUsed env config) ∧
    (env.validateDoc doc (validationRulesUsed env config) ≠ [] →
      (∃ r, (processGraphQLRequest env config ctx).result = .ok r ∧
        r.errors = some ((env.validateDoc doc (validationRulesUsed env config)).map
          (fromGraphQLError · (some .validationErr))) ∧
        ∀ fe ∈ (r.errors.getD []), fe.kind = .validationErr) ∧
      Event.engineExecute ∉ (processGraphQLRequest env config ctx).trace ∧
      Event.dispExecutionDidStart ∉ (processGraphQLRequest env config ctx).trace) := by
  constructor
  · intro rs
    simp only [processGraphQLRequest, hds, hrq]
    rw [List.append_assoc, List.mem_append]
    constructor
    · rintro (hm | hm)
      · rcases mem_initDataSources_events hm with ⟨n, hn⟩
        exact Event.noConfusion hn
      · rcases List.mem_append.mp hm with hm | hm
        · rcases mem_resolveQueryText_events hm with ⟨k, he⟩ | ⟨k, v, he⟩ | he <;>
            exact Event.noConfusion he
        · exact (runPipelineBody_validateCall env config _ rqv.query doc hparse rs).mp hm
    · intro hrs
      exact Or.inr (List.mem_append.mpr (Or.inr
        ((runPipelineBody_validateCall env config _ rqv.query doc hparse rs).mpr hrs)))
  · intro hval
    have hb := runPipelineBody_validation_error env config
      { { ctx with contextHasDataSources := b } with
        queryHash := some rqv.queryHash } rqv.query doc hparse hval
    refine ⟨⟨overwriteResponseFields (ctxSpreadBase ctx.response)
        { errors := some ((env.validateDoc doc (validationRulesUsed env config)).map
            (fromGraphQLError · (some .validationErr))) }, ?_, rfl, ?_⟩, ?_, ?_⟩
    · simp only [processGraphQLRequest, hds, hrq]
      exact hb.1
    · intro fe hfe
      simp only [overwriteResponseFields, Option.getD_some] at hfe
      rcases List.mem_map.mp hfe with ⟨ge, -, hge⟩
      rw [hge.symm]
      rfl
    · intro hm
      simp only [processGraphQLRequest, hds, hrq] at hm
      rw [List.append_assoc, List.mem_append] at hm
      rcases hm with hm | hm
      · rcases mem_initDataSources_events hm with ⟨n, hn⟩
        exact Event.noConfusion hn
      · rcases List.mem_append.mp hm with hm | hm
        · rcases mem_resolveQueryText_events hm with ⟨k, he⟩ | ⟨k, v, he⟩ | he <;>
            exact Event.noConfusion he
        · exact hb.2.1 hm
    · intro hm
      simp only [processGraphQLRequest, hds, hrq] at hm
      rw [List.append_assoc, List.mem_append] at hm
      rcases hm with hm | hm
      · rcases mem_initDataSources_events hm with ⟨n, hn⟩
        exact Event.noConfusion hn
      · rcases List.mem_append.mp hm with hm | hm
        · rcases mem_resolveQueryText_events hm with ⟨k, he⟩ | ⟨k, v, he⟩ | he <;>
            exact Event.noConfusion he
        · exact hb.2.2 hm

/-- C7 witness: the theorem applied to an environment whose engine reports one
validation error, with a caller-supplied custom rule configured. -/
theorem c7_witness :
    (∀ rs, Event.validateCall rs ∈ (processGraphQLRequest
        { baseEnv with validateDoc := fun _ _ => [{ message := "invalid" }] }
        { validationRules := some [.custom "mine"] } ctxPlain).trace ↔
      rs = validationRulesUsed
        { baseEnv with validateDoc := fun _ _ => [{ message := "invalid" }] }
        { validationRules := some [.custom "mine"] }) ∧
    ((fun env config =>
      env.validateDoc "doc-q1" (validationRulesUsed env config) ≠ [] →
      (∃ r, (processGraphQLRequest env config ctxPlain).result = .ok r ∧
        r.errors = some ((env.validateDoc "doc-q1" (validationRulesUsed env config)).map
          (fromGraphQLError · (some .validationErr))) ∧
        ∀ fe ∈ (r.errors.getD []), fe.kind = .validationErr) ∧
      Event.engineExecute ∉ (processGraphQLRequest env config ctxPlain).trace ∧
      Event.dispExecutionDidStart ∉ (processGraphQLRequest env config ctxPlain).trace)
      { baseEnv with validateDoc := fun _ _ => [{ message := "invalid" }] }
      { validationRules := some [.custom "mine"] }) :=
  c7_validation_rules
    { baseEnv with validateDoc := fun _ _ => [{ message := "invalid" }] }
    { validationRules := some [.custom "mine"] } ctxPlain "doc-q1" false
    { query := "q1", queryHash := "sha-q1",
      persistedQueryHit := false, persistedQueryRegister := false }
    rfl rfl rfl

/-! Claim C9. -/

/-- The per-stage dispatcher events of the claim, in required order: parse-end,
validate-start, validate-end, operation resolution, execute-start. -/
def stageOrderEvents : List Event :=
  [.dispParsingDidEnd false, .dispValidationDidStart, .dispValidationDidEnd false,
   .operationResolved, .dispExecutionDidStart]

lemma stageOrder_sublist (rules : List Rule) (rest : List Event) :
    List.Sublist stageOrderEvents
      (Event.extRequestDidStart :: Event.dispParsingDidStart ::
       Event.extParsingDidStart :: Event.extParsingDidEnd ::
       Event.dispParsingDidEnd false :: Event.dispValidationDidStart ::
       Event.extValidationDidStart :: Event.validateCall rules ::
       Event.extValidationDidEnd :: Event.dispValidationDidEnd false ::
       Event.operationResolved :: Event.dispDidResolveOperation ::
       Event.dispExecutionDidStart :: rest) :=
  .cons _ (.cons _ (.cons _ (.cons _ (.cons₂ _ (.cons₂ _ (.cons _ (.cons _
    (.cons _ (.cons₂ _ (.cons₂ _ (.cons _ (.cons₂ _ (List.nil_sublist rest)))))))))))))

lemma runPipelineBody_stage_order (env : Env) (config : Config)
    (c : RequestContext) (q : String)
    (h : Event.dispExecutionDidStart ∈ (runPipelineBody env config c q).trace) :
    List.Sublist stageOrderEvents (runPipelineBody env config c q).trace ∧
    ∀ e ∈ stageOrderEvents, countE e (runPipelineBody env config c q).trace = 1 := by
  unfold runPipelineBody at h ⊢
  rcases hp : env.parse q with e | doc <;> simp only [hp] at h ⊢
  · simp [sendErrorResponse, sendResponsePlain] at h
  · cases hv : (env.validateDoc doc (validationRulesUsed env config)).isEmpty <;>
      simp only [hv, Bool.false_eq_true, if_true, if_false] at h ⊢
    · simp [sendErrorResponse, sendResponsePlain] at h
    · rcases hd : dispatchDidResolveOperation config.plugins with e | u <;>
        simp only [hd] at h ⊢
      · simp at h
      · rcases hx : env.execute config.enableDefer doc c.request.operationName
            c.request.variables with e | er <;> simp only [hx] at h ⊢
        · constructor
          · exact stageOrder_sublist _ _
          · intro ev he
            fin_cases he <;> simp [sendErrorResponse, sendResponsePlain, countE]
        · rcases er with rr | ⟨ir, pp⟩ <;> simp only at h ⊢ <;> constructor
          · exact stageOrder_sublist _ _
          · intro ev he
            fin_cases he <;> simp [sendResponsePlain, countE]
          · exact stageOrder_sublist _ _
          · intro ev he
            fin_cases he <;> simp [sendResponseDeferred, countE]

/-- C9: on every request that reaches the execute stage, the dispatcher stage
events occur in the strict order parse-end, validate-start, validate-end,
operation resolution, execute-start — each occurs exactly once in the trace
and they appear as an ordered subsequence, so no later stage event precedes an
earlier one. -/
theorem c9_stage_order (env : Env) (config : Config) (ctx : RequestContext)
    (h : Event.dispExecutionDidStart ∈ (processGraphQLRequest env config ctx).trace) :
    List.Sublist stageOrderEvents (processGraphQLRequest env config ctx).trace ∧
    ∀ e ∈ stageOrderEvents, countE e (processGraphQLRequest env config ctx).trace = 1 := by
  simp only [processGraphQLRequest] at h ⊢
  rcases hdsr : (initDataSources config ctx.contextHasDataSources).res with e | hb <;>
    simp only [hdsr] at h ⊢
  · rcases mem_initDataSources_events h with ⟨n, hn⟩
    exact Event.noConfusion hn
  · rcases hrq : (resolveQueryText env config ctx.request).res with e | rqv <;>
      simp only [hrq] at h ⊢
    · rcases List.mem_append.mp h with hm | hm
      · rcases mem_initDataSources_events hm with ⟨n, hn⟩
        exact Event.noConfusion hn
      · rcases mem_resolveQueryText_events hm with ⟨k, he⟩ | ⟨k, v, he⟩ | he <;>
          exact Event.noConfusion he
    · rw [List.append_assoc] at h ⊢
      have hbody : Event.dispExecutionDidStart ∈
          (runPipelineBody env config
            { { ctx with contextHasDataSources := hb } with
              queryHash := some rqv.queryHash } rqv.query).trace := by
        rcases List.mem_append.mp h with hm | hm
        · rcases mem_initDataSources_events hm with ⟨n, hn⟩
          exact Event.noConfusion hn
        · rcases List.mem_append.mp hm with hm | hm
          · rcases mem_resolveQueryText_events hm with ⟨k, he⟩ | ⟨k, v, he⟩ | he <;>
              exact Event.noConfusion he
          · exact hm
      obtain ⟨hsub, hcnt⟩ := runPipelineBody_stage_order env config _ rqv.query hbody
      constructor
      · exact hsub.trans ((List.sublist_append_right _ _).trans
          (List.sublist_append_right _ _))
      · intro ev he
        have hone := hcnt ev he
        fin_cases he <;>
          rw [countE_append, countE_append,
            (countE_prefix_zero _ (fun n hh => Event.noConfusion hh)
              (fun k hh => Event.noConfusion hh) (fun k v hh => Event.noConfusion hh)
              (fun hh => Event.noConfusion hh)
              config ctx.contextHasDataSources env ctx.request).1,
            (countE_prefix_zero _ (fun n hh => Event.noConfusion hh)
              (fun k hh => Event.noConfusion hh) (fun k v hh => Event.noConfusion hh)
              (fun hh => Event.noConfusion hh)
              config ctx.contextHasDataSources env ctx.request).2] <;>
          simpa using hone

/-- C9 witness: the ordering theorem applied to a complete concrete run. -/
theorem c9_witness :
    List.Sublist stageOrderEvents (processGraphQLRequest baseEnv {} ctxPlain).trace ∧
    ∀ e ∈ stageOrderEvents, countE e (processGraphQLRequest baseEnv {} ctxPlain).trace = 1 :=
  c9_stage_order baseEnv {} ctxPlain (by decide)

/-! Claim C2. -/

/-- C2 evaluation at the failing input: when the engine execute call returns a
deferred result, the run returns the deferred envelope, yet the overall
`requestDidEnd` end-callback IS invoked in the cleanup block before
`processGraphQLRequest` returns: the trace of the deferred run contains the
`requestDidEnd` event. The `finally` of lines 301-305 tests the outer
`isDeferred` of line 190, but the assignment of line 258 targets the inner
`let isDeferred` of line 249 that shadows it, so the outer flag is still false
on the deferred path — while the envelope of lines 285-290 also hands
`requestDidEnd` to the consumer for invocation at stream completion. -/
theorem c2_requestDidEnd_on_deferred :
    (processGraphQLRequest envDefer {} ctxPlain).result =
      .okDeferred { initialResponse := { data := some "init" },
                    deferredPatches := "patches" } ∧
    Event.requestDidEnd ∈ (processGraphQLRequest envDefer {} ctxPlain).trace :=
  ⟨rfl, by decide⟩

/-! Claim C3. -/

/-- A configuration with one plugin whose `didResolveOperation` rejects. -/
def cfgHookFail : Config :=
  { plugins := [{ didResolveOperation := some (.error { message := "boom" }) }] }

/-- C3 counterexample: when a plugin listener's `didResolveOperation` rejects,
`processGraphQLRequest` does not return a formatted error response — the
rejection propagates to the caller as a thrown error. -/
theorem c3_counterexample :
    (processGraphQLRequest baseEnv cfgHookFail ctxPlain).result =
      .thrown (.hookRejection "boom") ∧
    ∀ r, (processGraphQLRequest baseEnv cfgHookFail ctxPlain).result ≠ .ok r := by
  refine ⟨rfl, fun r h => ?_⟩
  exact PResult.noConfusion
    (show PResult.thrown (.hookRejection "boom") = .ok r from h)

/-- C3 amended: a rejection from a plugin listener's `didResolveOperation`
hook is NOT caught by the orchestrator: it propagates out of
`processGraphQLRequest` as a thrown error (the outer try has only a cleanup
block, which still invokes the overall `requestDidEnd` callback on the way
out); no error response is returned, and no execution did-start or did-end
callback exists yet to be informed — the execute stage is never entered. -/
theorem c3_amended (env : Env) (config : Config) (ctx : RequestContext)
    (b : Bool) (rqv : ResolvedQuery) (doc : Document) (e : GError)
    (hds : (initDataSources config ctx.contextHasDataSources).res = .ok b)
    (hrq : (resolveQueryText env config ctx.request).res = .ok rqv)
    (hparse : env.parse rqv.query = .ok doc)
    (hval : env.validateDoc doc (validationRulesUsed env config) = [])
    (hdisp : dispatchDidResolveOperation config.plugins = .error e) :
    (processGraphQLRequest env config ctx).result = .thrown (.hookRejection e.message) ∧
    Event.requestDidEnd ∈ (processGraphQLRequest env config ctx).trace ∧
    Event.dispExecutionDidStart ∉ (processGraphQLRequest env config ctx).trace ∧
    ∀ w, Event.dispExecutionDidEnd w ∉ (processGraphQLRequest env config ctx).trace := by
  refine ⟨?_, ?_, ?_, ?_⟩
  · simp [processGraphQLRequest, hds, hrq, runPipelineBody, hparse, hval, hdisp]
  · simp [processGraphQLRequest, hds, hrq, runPipelineBody, hparse, hval, hdisp,
      List.mem_append]
  · intro hm
    simp only [processGraphQLRequest, hds, hrq, runPipelineBody, hparse, hval,
      hdisp] at hm
    rw [List.append_assoc, List.mem_append] at hm
    rcases hm with hm | hm
    · rcases mem_initDataSources_events hm with ⟨n, hn⟩
      exact Event.noConfusion hn
    · rcases List.mem_append.mp hm with hm | hm
      · rcases mem_resolveQueryText_events hm with ⟨k, he⟩ | ⟨k, v, he⟩ | he <;>
          exact Event.noConfusion he
      · simp at hm
  · intro w hm
    simp only [processGraphQLRequest, hds, hrq, runPipelineBody, hparse, hval,
      hdisp] at hm
    rw [List.append_assoc, List.mem_append] at hm
    rcases hm with hm | hm
    · rcases mem_initDataSources_events hm with ⟨n, hn⟩
      exact Event.noConfusion hn
    · rcases List.mem_append.mp hm with hm | hm
      · rcases mem_resolveQueryText_events hm with ⟨k, he⟩ | ⟨k, v, he⟩ | he <;>
          exact Event.noConfusion he
      · simp at hm

/-- C3 witness: the amended theorem applied to the rejecting-plugin
configuration. -/
theorem c3_witness :
    (processGraphQLRequest baseEnv cfgHookFail ctxPlain).result =
      .thrown (.hookRejection "boom") ∧
    Event.requestDidEnd ∈ (processGraphQLRequest baseEnv cfgHookFail ctxPlain).trace ∧
    Event.dispExecutionDidStart ∉ (processGraphQLRequest baseEnv cfgHookFail ctxPlain).trace ∧
    ∀ w, Event.dispExecutionDidEnd w ∉ (processGraphQLRequest baseEnv cfgHookFail ctxPlain).trace :=
  c3_amended baseEnv cfgHookFail ctxPlain false
    { query := "q1", queryHash := "sha-q1",
      persistedQueryHit := false, persistedQueryRegister := false }
    "doc-q1" { message := "boom" } rfl rfl rfl rfl rfl
